import Mathlib

/-!
Verification of the most-active-channel lookup and render endpoint.

The development shallowly embeds the two source files:
* the resolver (`fetchMostActiveChannelImage` and its helpers), which
  performs two remote lookups and a local tally-and-max aggregation, and
* the HTTP handler, which classifies resolver failures into HTTP
  responses and composites the channel image onto a template.

Remote calls are modelled by a `NeynarWorld` record giving the outcome of
each call; image loading by a `RenderWorld` record.  Machine floats of the
layout arithmetic are embedded as exact rationals.
-/

namespace FavChannel

/-! ## Data model (resolver side) -/

/-- A cast's channel, as in the `NeynarUserCastResponse` type: the two
optional image fields reflect the two API shapes (`image_url` vs
`imageUrl`). -/
structure Channel where
  id : String
  name : String
  imageUrl : Option String
  image_url : Option String
  deriving DecidableEq

/-- One cast of the feed response.  Only `hash` and the optional `channel`
appear in the source type; only `channel` is read. -/
structure Cast where
  hash : String
  channel : Option Channel
  deriving DecidableEq

/-- The resolver's success record. `channelName` is an optional field in the
source type. -/
structure MostActiveChannelImage where
  channelImageUrl : String
  address : String
  channelName : Option String
  deriving DecidableEq

/-- An identity record of the bulk-by-address response; of its fields the
resolver reads only `fid`. -/
structure NeynarUser where
  fid : Nat
  deriving DecidableEq

/-- The feed response; the `next.cursor` field of the source type is never
read and is omitted. -/
structure NeynarUserCastResponse where
  casts : List Cast
  deriving DecidableEq

/-- How a remote axios call failed: with an HTTP response carrying a status
(`text` is the stringification `String(error)` of the error object), or
without a response (network trouble, timeout, parse failure). -/
inductive AxiosFailure where
  | http (status : Nat) (text : String)
  | net (text : String)
  deriving DecidableEq

/-- Outcome of one remote call. -/
inductive AxiosOutcome (α : Type) where
  | ok (data : α)
  | fail (e : AxiosFailure)

/-- The remote world a single resolver run observes: the outcome of the
identity lookup (a mapping from lower-cased address to identity lists) and,
per fid, the outcome of the popular-casts lookup. -/
structure NeynarWorld where
  userCall : AxiosOutcome (List (String × List NeynarUser))
  castsCall : Nat → AxiosOutcome NeynarUserCastResponse

/-- The errors the resolver throws.  Each constructor is one `throw new
Error(...)` site of the source; `message` below recovers the thrown text. -/
inductive ResolverError where
  | invalidAddress
  | authFailed
  | forbidden
  | serverError
  | wrapped (address : String) (cause : String)
  deriving DecidableEq

/-- The message of each thrown error, exactly as the source writes it. -/
def ResolverError.message : ResolverError → String
  | .invalidAddress => "Invalid address provided"
  | .authFailed => "API authentication failed"
  | .forbidden => "Access forbidden (403)"
  | .serverError => "Neynar server error"
  | .wrapped address cause =>
      "Failed to fetch most active channel image for address " ++ address ++ ": " ++ cause

/-! ## Aggregation (step 3 and 4 of the resolver) -/

/-- One aggregate record of the `channelActivity` map. -/
structure ChannelActivityEntry where
  count : Nat
  imageUrl : String
  name : String
  deriving DecidableEq

/-- JavaScript `a || b` on an optional string: the left value unless it is
absent or empty (falsy). -/
def jsOrString (a : Option String) (b : String) : String :=
  match a with
  | some s => if s = "" then b else s
  | none => b

/-- The coalesce `image_url || imageUrl || ""` from the source. -/
def coalesceImageUrl (ch : Channel) : String :=
  jsOrString ch.image_url (jsOrString ch.imageUrl "")

/-- Reading `channelActivity[id]`: the `Record` is embedded as an
insertion-ordered association list. -/
def lookupActivity (acc : List (String × ChannelActivityEntry)) (id : String) :
    Option ChannelActivityEntry :=
  (acc.find? (fun p => p.1 == id)).map Prod.snd

/-- One cast with channel `ch` hitting the map: if the id is absent a fresh
record `{count: 0, imageUrl, name}` is appended, then `count` is
incremented in place. -/
def bump (acc : List (String × ChannelActivityEntry)) (ch : Channel) :
    List (String × ChannelActivityEntry) :=
  let acc1 :=
    if (lookupActivity acc ch.id).isSome then acc
    else acc ++ [(ch.id, ⟨0, coalesceImageUrl ch, ch.name⟩)]
  acc1.map (fun p => if p.1 == ch.id then (p.1, ⟨p.2.count + 1, p.2.imageUrl, p.2.name⟩) else p)

/-- The body of the `for (const cast of casts)` loop. -/
def chanStep (acc : List (String × ChannelActivityEntry)) (cast : Cast) :
    List (String × ChannelActivityEntry) :=
  match cast.channel with
  | some ch => bump acc ch
  | none => acc

/-- The whole aggregation scan. -/
def channelActivity (casts : List Cast) : List (String × ChannelActivityEntry) :=
  casts.foldl chanStep []

/-- One step of the `reduce` that selects the most active channel: a later
entry replaces the current maximum only when its count is strictly
greater. -/
def mostActiveStep (max : Option (String × ChannelActivityEntry))
    (p : String × ChannelActivityEntry) : Option (String × ChannelActivityEntry) :=
  match max with
  | none => some p
  | some m => if p.2.count > m.2.count then some p else some m

/-- The `reduce` over `Object.entries(channelActivity)` (entries in
insertion order). -/
def mostActive (entries : List (String × ChannelActivityEntry)) :
    Option (String × ChannelActivityEntry) :=
  entries.foldl mostActiveStep none

/-! ## The resolver -/

/-- Reading `userResponse.data?.[addressKey]` on the embedded response mapping. -/
def lookupUsers (m : List (String × List NeynarUser)) (key : String) :
    Option (List NeynarUser) :=
  (m.find? (fun p => p.1 == key)).map Prod.snd

/-- The catch block of the resolver: statuses 401, 403, 404 and >= 500 are
recognised in that order; everything else— including an HTTP 429 — falls
through to the generic wrap of the stringified cause and the address. -/
def catchClassify (address : String) (e : AxiosFailure) :
    Except ResolverError (Option MostActiveChannelImage) :=
  match e with
  | .http status text =>
      if status = 401 then .error .authFailed
      else if status = 403 then .error .forbidden
      else if status = 404 then .ok none
      else if 500 ≤ status then .error .serverError
      else .error (.wrapped address text)
  | .net text => .error (.wrapped address text)

/-- The source expression `address.toLowerCase()`, as a character-wise map (the
library `String.toLower` is the same map but does not reduce in the
kernel). -/
def toLowerCase (s : String) : String := ⟨s.data.map Char.toLower⟩

/-- The `try` body of the resolver: identity lookup, feed lookup,
aggregation, selection. -/
def fetchTry (address : String) (w : NeynarWorld) :
    Except ResolverError (Option MostActiveChannelImage) :=
  let addressKey := toLowerCase address
  match w.userCall with
  | .fail e => catchClassify address e
  | .ok userMap =>
      match lookupUsers userMap addressKey with
      | none => .ok none
      | some [] => .ok none
      | some (u :: _) =>
          match w.castsCall u.fid with
          | .fail e => catchClassify address e
          | .ok resp =>
              if resp.casts = [] then .ok none
              else
                match mostActive (channelActivity resp.casts) with
                | none => .ok none
                | some m => .ok (some ⟨m.2.imageUrl, address, some m.2.name⟩)

/-- The resolver `fetchMostActiveChannelImage`: the guard rejects a falsy address (the
`typeof` disjunct is vacuous in a typed embedding), then the try body
runs. -/
def fetchMostActiveChannelImage (address : String) (w : NeynarWorld) :
    Except ResolverError (Option MostActiveChannelImage) :=
  if address = "" then .error .invalidAddress
  else fetchTry address w

/-- Backward-compatibility alias of the source. -/
def fetchFirstMintedArtwork : String → NeynarWorld →
    Except ResolverError (Option MostActiveChannelImage) :=
  fetchMostActiveChannelImage

/-! ## Render side (the HTTP handler) -/

/-- A loaded image contributes only its dimensions to the layout; the
source's doubles are embedded as exact rationals. -/
structure Img where
  width : ℚ
  height : ℚ
  deriving DecidableEq

/-- The canvas operations the handler performs, in order. -/
inductive DrawOp where
  | drawTemplate
  | drawImage (x y w h : ℚ)
  | strokeRect (x y w h : ℚ) (style : String) (lineWidth : ℚ)
  deriving DecidableEq

/-- The fixed placeholder image URL of the source. -/
def placeholderUrl : String :=
  "https://www.svgrepo.com/show/508699/landscape-placeholder.svg"

/-- What the handler run observes of image loading: the template load, the
result of `loadImage` per URL (the placeholder included), and `Date.now()`
in milliseconds. -/
structure RenderWorld where
  templateLoad : Option Img
  imageLoad : String → Option Img
  now : Nat

/-- The JSON error bodies the handler sends. -/
structure JsonBody where
  error : String
  message : Option String
  retryAfter : Option Nat
  deriving DecidableEq

/-- A response body: either the PNG encoding of the performed draw
operations, or a JSON error object. -/
inductive ResponseBody where
  | png (ops : List DrawOp)
  | json (body : JsonBody)
  deriving DecidableEq

/-- An HTTP response: status, the explicitly set headers in order, body.
The ISO rendering of the `X-RateLimit-Reset` instant is abstracted to the
decimal millisecond value of that instant. -/
structure HttpResponse where
  status : Nat
  headers : List (String × String)
  body : ResponseBody
  deriving DecidableEq

/-- JavaScript `hay.includes(pat)`. -/
def includesSubstr (hay pat : String) : Bool :=
  decide (pat.data <:+: hay.data)

/-- The handler's rate-limit test on a caught error's message.  The third
disjunct of the source (`error.response && error.response.status === 429`)
never fires for resolver errors, which are plain `Error` objects without a
`response` field. -/
def rateLimitCheck (msg : String) : Bool :=
  includesSubstr msg "Rate limit exceeded" || includesSubstr msg "429"

/-- The catch block around the resolver call: rate-limit test first, then
the invalid-address test, then the 503 fallback. -/
def handlerErrorResponse (now : Nat) (e : ResolverError) : HttpResponse :=
  if rateLimitCheck e.message then
    { status := 429
      headers := [("Retry-After", "60"), ("X-RateLimit-Reset", toString (now + 60000))]
      body := .json ⟨"Rate limit exceeded. Please try again later.",
        some "Too many requests to external API. Please wait before retrying.", some 60⟩ }
  else if includesSubstr e.message "Invalid address" then
    { status := 400
      headers := []
      body := .json ⟨"Invalid Ethereum address provided",
        some "Please provide a valid Ethereum address in 0x format.", none⟩ }
  else
    { status := 503
      headers := [("Retry-After", "30")]
      body := .json ⟨"External API service temporarily unavailable. Please try again later.",
        some "The external API is currently experiencing issues. Please retry in 30 seconds.", none⟩ }

/-- Position and display size of the artwork on the canvas. -/
structure ArtLayout where
  x : ℚ
  y : ℚ
  displayWidth : ℚ
  displayHeight : ℚ
  deriving DecidableEq

/-- The layout arithmetic of the handler: fit into a 670 by 670 box by
width first, reduce by height if needed, then centre and shift up 28.5 and
right 0.1. -/
def artLayout (canvasWidth canvasHeight : ℚ) (img : Img) : ArtLayout :=
  let maxWidth : ℚ := 670
  let maxHeight : ℚ := 670
  let aspectRatio := img.width / img.height
  let shiftUp : ℚ := 28.5
  let shiftRight : ℚ := 0.1
  let displayWidth := maxWidth
  let displayHeight := maxWidth / aspectRatio
  if displayHeight > maxHeight then
    let displayHeight2 := maxHeight
    let displayWidth2 := maxHeight * aspectRatio
    ⟨(canvasWidth - displayWidth2) / 2 + shiftRight,
     (canvasHeight - displayHeight2) / 2 - shiftUp, displayWidth2, displayHeight2⟩
  else
    ⟨(canvasWidth - displayWidth) / 2 + shiftRight,
     (canvasHeight - displayHeight) / 2 - shiftUp, displayWidth, displayHeight⟩

/-- Drawing the artwork: the image at the computed layout, then the border
stroke at the 2-unit-expanded rectangle with the translucent white style
and line width 2. -/
def artOps (canvasWidth canvasHeight : ℚ) (img : Img) : List DrawOp :=
  let L := artLayout canvasWidth canvasHeight img
  [ .drawImage L.x L.y L.displayWidth L.displayHeight,
    .strokeRect (L.x - 2) (L.y - 2) (L.displayWidth + 4) (L.displayHeight + 4)
      "rgba(255, 255, 255, 0.3)" 2 ]

/-- The 400 response of the presence check. -/
def missingAddressResponse : HttpResponse :=
  { status := 400, headers := [], body := .json ⟨"Valid Ethereum address is required", none, none⟩ }

/-- The outer catch: any uncaught exception becomes a 500. -/
def internalErrorResponse : HttpResponse :=
  { status := 500, headers := []
    body := .json ⟨"Internal server error",
      some "An unexpected error occurred while processing your request.", none⟩ }

/-- The artwork-or-placeholder choice of the handler: a non-empty
`channelImageUrl` is loaded first; on absence, emptiness or load failure
the placeholder URL is loaded; if that also fails there is no artwork. -/
def chooseArtwork (rw : RenderWorld) (result : Option MostActiveChannelImage) : Option Img :=
  match result with
  | some art =>
      if art.channelImageUrl ≠ "" then
        match rw.imageLoad art.channelImageUrl with
        | some img => some img
        | none => rw.imageLoad placeholderUrl
      else rw.imageLoad placeholderUrl
  | none => rw.imageLoad placeholderUrl

/-- The whole handler.  `address` is the query parameter (`none` when
absent; the empty string is also falsy for the presence check); the
template failing to load throws into the outer catch; a resolver error is
classified by `handlerErrorResponse`; otherwise the artwork (or the
placeholder, or nothing) is composited over the template and a 200 PNG is
sent with the caching and security headers. -/
def handler (address : Option String) (rw : RenderWorld) (nw : NeynarWorld) : HttpResponse :=
  match address with
  | none => missingAddressResponse
  | some addr =>
      if addr = "" then missingAddressResponse
      else
        match rw.templateLoad with
        | none => internalErrorResponse
        | some tmpl =>
            match fetchMostActiveChannelImage addr nw with
            | .error e => handlerErrorResponse rw.now e
            | .ok result =>
                let artworkImage : Option Img := chooseArtwork rw result
                { status := 200
                  headers := [("Content-Type", "image/png"),
                    ("Cache-Control", "public, max-age=300"),
                    ("X-Content-Type-Options", "nosniff"),
                    ("X-Frame-Options", "DENY")]
                  body := .png (DrawOp.drawTemplate ::
                    (match artworkImage with
                     | some img => artOps tmpl.width tmpl.height img
                     | none => [])) }

/-- The border rectangle as the spec's sentence words it: around the drawn
bounding box, inset by 2 units on each side (stated for comparison with
the source's `artOps`). -/
def specInsetBorder (x y w h : ℚ) : DrawOp :=
  .strokeRect (x + 2) (y + 2) (w - 4) (h - 4) "rgba(255, 255, 255, 0.3)" 2

/-! ## The selection fold: characterisation -/

/-- The left-to-right maximum with first-seen tie-break, stated
recursively: the head wins unless a later entry is strictly greater. -/
def firstMax : List (String × ChannelActivityEntry) → Option (String × ChannelActivityEntry)
  | [] => none
  | p :: l =>
      match firstMax l with
      | none => some p
      | some m => if m.2.count > p.2.count then some m else some p

theorem foldl_mostActiveStep_some (l : List (String × ChannelActivityEntry))
    (p : String × ChannelActivityEntry) :
    l.foldl mostActiveStep (some p) =
      some (match firstMax l with
            | none => p
            | some m => if m.2.count > p.2.count then m else p) := by
  induction l generalizing p with
  | nil => simp [firstMax]
  | cons q l ih =>
      show List.foldl mostActiveStep (mostActiveStep (some p) q) l = _
      simp only [mostActiveStep]
      by_cases h1 : q.2.count > p.2.count
      · rw [if_pos h1, ih]
        simp only [firstMax]
        cases hm : firstMax l with
        | none => simp [h1]
        | some m =>
            dsimp only
            split_ifs <;> dsimp only <;> split_ifs <;> first | rfl | (exfalso; omega)
      · rw [if_neg h1, ih]
        simp only [firstMax]
        cases hm : firstMax l with
        | none => simp [h1]
        | some m =>
            dsimp only
            split_ifs <;> dsimp only <;> split_ifs <;> first | rfl | (exfalso; omega)

theorem mostActive_eq_firstMax (l : List (String × ChannelActivityEntry)) :
    mostActive l = firstMax l := by
  cases l with
  | nil => rfl
  | cons p l =>
      show List.foldl mostActiveStep (mostActiveStep none p) l = _
      simp only [mostActiveStep]
      rw [foldl_mostActiveStep_some]
      simp only [firstMax]
      cases firstMax l with
      | none => rfl
      | some m => dsimp only; split_ifs <;> rfl

theorem firstMax_eq_none_iff (l : List (String × ChannelActivityEntry)) :
    firstMax l = none ↔ l = [] := by
  cases l with
  | nil => simp [firstMax]
  | cons p l =>
      simp only [firstMax]
      cases firstMax l with
      | none => simp
      | some m => dsimp only; split_ifs <;> simp

theorem firstMax_spec :
    ∀ (l : List (String × ChannelActivityEntry)) (p : String × ChannelActivityEntry),
      firstMax l = some p →
        ∃ l₁ l₂, l = l₁ ++ p :: l₂ ∧ ∀ q ∈ l₁, q.2.count < p.2.count := by
  intro l
  induction l with
  | nil => intro p h; simp [firstMax] at h
  | cons a l ih =>
      intro p h
      simp only [firstMax] at h
      cases hm : firstMax l with
      | none =>
          rw [hm] at h
          obtain rfl : a = p := by injection h
          exact ⟨[], l, rfl, by simp⟩
      | some m =>
          rw [hm] at h
          dsimp only at h
          by_cases hc : m.2.count > a.2.count
          · rw [if_pos hc] at h
            obtain rfl : m = p := by injection h
            obtain ⟨l₁, l₂, hl, hlt⟩ := ih m hm
            refine ⟨a :: l₁, l₂, by rw [hl]; rfl, ?_⟩
            intro q hq
            rcases List.mem_cons.mp hq with rfl | hq
            · exact hc
            · exact hlt q hq
          · rw [if_neg hc] at h
            obtain rfl : a = p := by injection h
            exact ⟨[], l, rfl, by simp⟩

theorem firstMax_le :
    ∀ (l : List (String × ChannelActivityEntry)) (p : String × ChannelActivityEntry),
      firstMax l = some p → ∀ q ∈ l, q.2.count ≤ p.2.count := by
  intro l
  induction l with
  | nil => intro p h; simp [firstMax] at h
  | cons a l ih =>
      intro p h q hq
      simp only [firstMax] at h
      cases hm : firstMax l with
      | none =>
          rw [hm] at h
          obtain rfl : a = p := by injection h
          rcases List.mem_cons.mp hq with rfl | hq
          · exact le_refl _
          · rw [firstMax_eq_none_iff] at hm
            subst hm
            simp at hq
      | some m =>
          rw [hm] at h
          dsimp only at h
          by_cases hc : m.2.count > a.2.count
          · rw [if_pos hc] at h
            obtain rfl : m = p := by injection h
            rcases List.mem_cons.mp hq with rfl | hq
            · exact le_of_lt hc
            · exact ih m hm q hq
          · rw [if_neg hc] at h
            obtain rfl : a = p := by injection h
            rcases List.mem_cons.mp hq with rfl | hq
            · exact le_refl _
            · exact le_trans (ih m hm q hq) (le_of_not_lt hc)

theorem mostActive_eq_none_iff (l : List (String × ChannelActivityEntry)) :
    mostActive l = none ↔ l = [] := by
  rw [mostActive_eq_firstMax, firstMax_eq_none_iff]

/-! ## The aggregation map: characterisation -/

/-- Whether a cast names channel id `id`. -/
def castNames (c : Cast) (id : String) : Bool :=
  match c.channel with
  | some ch => ch.id == id
  | none => false

/-- The number of casts naming channel id `id`. -/
def countNaming (cs : List Cast) (id : String) : Nat :=
  (cs.filter (fun c => castNames c id)).length

/-- The channel object of the first cast naming `id`. -/
def firstChannelFor (cs : List Cast) (id : String) : Option Channel :=
  cs.findSome? (fun c =>
    match c.channel with
    | some ch => if ch.id == id then some ch else none
    | none => none)

theorem lookupActivity_cons (a : String × ChannelActivityEntry)
    (l : List (String × ChannelActivityEntry)) (k : String) :
    lookupActivity (a :: l) k = if a.1 = k then some a.2 else lookupActivity l k := by
  by_cases h : a.1 = k
  · rw [if_pos h]
    unfold lookupActivity
    rw [List.find?_cons_of_pos _ (by simpa using h)]
    rfl
  · rw [if_neg h]
    unfold lookupActivity
    rw [List.find?_cons_of_neg _ (by simpa using h)]

theorem lookupActivity_append (l₁ l₂ : List (String × ChannelActivityEntry)) (k : String) :
    lookupActivity (l₁ ++ l₂) k =
      match lookupActivity l₁ k with
      | some e => some e
      | none => lookupActivity l₂ k := by
  induction l₁ with
  | nil => simp [lookupActivity]
  | cons a l₁ ih =>
      rw [List.cons_append, lookupActivity_cons, lookupActivity_cons]
      by_cases h : a.1 = k
      · rw [if_pos h, if_pos h]
      · rw [if_neg h, if_neg h, ih]

theorem lookupActivity_map_incr_self (l : List (String × ChannelActivityEntry)) (k : String) :
    lookupActivity
        (l.map (fun p => if p.1 == k then (p.1, ⟨p.2.count + 1, p.2.imageUrl, p.2.name⟩) else p)) k
      = (lookupActivity l k).map (fun e => ⟨e.count + 1, e.imageUrl, e.name⟩) := by
  induction l with
  | nil => rfl
  | cons a l ih =>
      simp only [List.map_cons]
      by_cases h : a.1 = k
      · have hb : (a.1 == k) = true := by simpa using h
        rw [if_pos hb, lookupActivity_cons, lookupActivity_cons, if_pos h, if_pos h]
        rfl
      · have hb : ¬((a.1 == k) = true) := by simp [h]
        rw [if_neg hb, lookupActivity_cons, lookupActivity_cons, if_neg h, if_neg h, ih]

theorem lookupActivity_map_incr_ne (l : List (String × ChannelActivityEntry)) (k κ : String)
    (hκ : κ ≠ k) :
    lookupActivity
        (l.map (fun p => if p.1 == k then (p.1, ⟨p.2.count + 1, p.2.imageUrl, p.2.name⟩) else p)) κ
      = lookupActivity l κ := by
  induction l with
  | nil => rfl
  | cons a l ih =>
      simp only [List.map_cons]
      by_cases h2 : a.1 = k
      · have hb : (a.1 == k) = true := by simpa using h2
        rw [if_pos hb, lookupActivity_cons, lookupActivity_cons]
        have hne : ¬ (a.1 = κ) := by rw [h2]; exact fun hc => hκ hc.symm
        rw [if_neg hne, if_neg hne, ih]
      · have hb : ¬((a.1 == k) = true) := by simp [h2]
        rw [if_neg hb, lookupActivity_cons, lookupActivity_cons]
        by_cases h3 : a.1 = κ
        · rw [if_pos h3, if_pos h3]
        · rw [if_neg h3, if_neg h3, ih]

theorem lookupActivity_bump_self (acc : List (String × ChannelActivityEntry)) (ch : Channel) :
    lookupActivity (bump acc ch) ch.id =
      some (match lookupActivity acc ch.id with
            | some e => ⟨e.count + 1, e.imageUrl, e.name⟩
            | none => ⟨1, coalesceImageUrl ch, ch.name⟩) := by
  unfold bump
  cases h : lookupActivity acc ch.id with
  | some e =>
      simp only [h, Option.isSome_some, if_pos]
      rw [lookupActivity_map_incr_self, h]
      rfl
  | none =>
      simp only [h, Option.isSome_none, Bool.false_eq_true, if_false]
      rw [lookupActivity_map_incr_self, lookupActivity_append, h]
      simp [lookupActivity]

theorem lookupActivity_bump_ne (acc : List (String × ChannelActivityEntry)) (ch : Channel)
    (κ : String) (h : κ ≠ ch.id) :
    lookupActivity (bump acc ch) κ = lookupActivity acc κ := by
  unfold bump
  cases hs : (lookupActivity acc ch.id).isSome with
  | true =>
      simp only [hs, if_pos]
      rw [lookupActivity_map_incr_ne _ _ _ h]
  | false =>
      simp only [hs, Bool.false_eq_true, if_false]
      rw [lookupActivity_map_incr_ne _ _ _ h, lookupActivity_append]
      have : lookupActivity [(ch.id, (⟨0, coalesceImageUrl ch, ch.name⟩ : ChannelActivityEntry))] κ
          = none := by
        simp [lookupActivity, beq_eq_false_iff_ne.mpr (Ne.symm h)]
      rw [this]
      cases lookupActivity acc κ <;> rfl

theorem lookupActivity_foldl (cs : List Cast) :
    ∀ (acc : List (String × ChannelActivityEntry)) (id : String),
      lookupActivity (cs.foldl chanStep acc) id =
        match lookupActivity acc id with
        | some e => some ⟨e.count + countNaming cs id, e.imageUrl, e.name⟩
        | none =>
            (firstChannelFor cs id).map
              (fun ch => ⟨countNaming cs id, coalesceImageUrl ch, ch.name⟩) := by
  induction cs with
  | nil =>
      intro acc id
      simp only [List.foldl_nil, countNaming, firstChannelFor, List.filter_nil,
        List.length_nil, List.findSome?_nil]
      cases h : lookupActivity acc id <;> simp
  | cons c cs ih =>
      intro acc id
      rw [List.foldl_cons]
      cases hcc : c.channel with
      | none =>
          have hstep : chanStep acc c = acc := by simp [chanStep, hcc]
          have hname : castNames c id = false := by simp [castNames, hcc]
          rw [hstep, ih]
          simp [countNaming, firstChannelFor, List.findSome?_cons, hcc,
            List.filter_cons, hname]
      | some ch =>
          have hstep : chanStep acc c = bump acc ch := by simp [chanStep, hcc]
          rw [hstep, ih]
          by_cases hid : ch.id = id
          · subst hid
            have hname : castNames c ch.id = true := by
              simp [castNames, hcc]
            have hcount : countNaming (c :: cs) ch.id = countNaming cs ch.id + 1 := by
              simp [countNaming, List.filter_cons, hname]
            have hfirst : firstChannelFor (c :: cs) ch.id = some ch := by
              simp [firstChannelFor, List.findSome?_cons, hcc]
            rw [lookupActivity_bump_self, hcount, hfirst]
            cases h : lookupActivity acc ch.id with
            | some e =>
                dsimp only
                congr 1
                simp only [ChannelActivityEntry.mk.injEq, and_true, true_and]
                omega
            | none =>
                dsimp only
                congr 1
                simp only [ChannelActivityEntry.mk.injEq, and_true, true_and]
                omega
          · have hname : castNames c id = false := by
              simp [castNames, hcc, beq_eq_false_iff_ne.mpr hid]
            have hcount : countNaming (c :: cs) id = countNaming cs id := by
              simp [countNaming, List.filter_cons, hname]
            have hfirst : firstChannelFor (c :: cs) id = firstChannelFor cs id := by
              simp [firstChannelFor, List.findSome?_cons, hcc, hid]
            rw [lookupActivity_bump_ne acc ch id (fun he => hid he.symm), hcount, hfirst]

/-- The headline characterisation: reading the built map at any id yields
exactly the tally and the first cast's coalesced image and name. -/
theorem lookupActivity_channelActivity (casts : List Cast) (id : String) :
    lookupActivity (channelActivity casts) id =
      (firstChannelFor casts id).map
        (fun ch => ⟨countNaming casts id, coalesceImageUrl ch, ch.name⟩) := by
  have h := lookupActivity_foldl casts [] id
  rw [channelActivity]
  rw [h]
  simp [lookupActivity]

/-! ## Key order of the aggregation map -/

/-- The channel ids of the casts in order of first appearance, skipping ids
already seen. -/
def newFirstIds (seen : List String) : List Cast → List String
  | [] => []
  | c :: cs =>
      match c.channel with
      | none => newFirstIds seen cs
      | some ch =>
          if ch.id ∈ seen then newFirstIds seen cs
          else ch.id :: newFirstIds (ch.id :: seen) cs

theorem newFirstIds_congr :
    ∀ (cs : List Cast) (s₁ s₂ : List String), (∀ a, a ∈ s₁ ↔ a ∈ s₂) →
      newFirstIds s₁ cs = newFirstIds s₂ cs := by
  intro cs
  induction cs with
  | nil => intro s₁ s₂ h; rfl
  | cons c cs ih =>
      intro s₁ s₂ h
      cases hcc : c.channel with
      | none => simp only [newFirstIds, hcc]; exact ih s₁ s₂ h
      | some ch =>
          simp only [newFirstIds, hcc]
          by_cases hm : ch.id ∈ s₁
          · rw [if_pos hm, if_pos ((h ch.id).mp hm)]
            exact ih s₁ s₂ h
          · rw [if_neg hm, if_neg (fun hc => hm ((h ch.id).mpr hc))]
            have h2 : ∀ a, a ∈ ch.id :: s₁ ↔ a ∈ ch.id :: s₂ := by
              intro a; simp [h a]
            rw [ih _ _ h2]

theorem mem_newFirstIds_not_seen :
    ∀ (cs : List Cast) (seen : List String) (a : String),
      a ∈ newFirstIds seen cs → a ∉ seen := by
  intro cs
  induction cs with
  | nil => intro seen a h; simp [newFirstIds] at h
  | cons c cs ih =>
      intro seen a h
      cases hcc : c.channel with
      | none =>
          simp only [newFirstIds, hcc] at h
          exact ih seen a h
      | some ch =>
          simp only [newFirstIds, hcc] at h
          by_cases hm : ch.id ∈ seen
          · rw [if_pos hm] at h
            exact ih seen a h
          · rw [if_neg hm] at h
            rcases List.mem_cons.mp h with rfl | h
            · exact hm
            · intro hc
              exact ih _ a h (List.mem_cons_of_mem _ hc)

theorem newFirstIds_nodup :
    ∀ (cs : List Cast) (seen : List String), (newFirstIds seen cs).Nodup := by
  intro cs
  induction cs with
  | nil => intro seen; simp [newFirstIds]
  | cons c cs ih =>
      intro seen
      cases hcc : c.channel with
      | none => simp only [newFirstIds, hcc]; exact ih seen
      | some ch =>
          simp only [newFirstIds, hcc]
          by_cases hm : ch.id ∈ seen
          · rw [if_pos hm]; exact ih seen
          · rw [if_neg hm]
            refine List.nodup_cons.mpr ⟨?_, ih _⟩
            intro hc
            exact mem_newFirstIds_not_seen cs _ ch.id hc (List.mem_cons_self _ _)

theorem bump_map_fst (acc : List (String × ChannelActivityEntry)) (ch : Channel) :
    (bump acc ch).map Prod.fst =
      if (lookupActivity acc ch.id).isSome then acc.map Prod.fst
      else acc.map Prod.fst ++ [ch.id] := by
  unfold bump
  have hmap : ∀ (l : List (String × ChannelActivityEntry)),
      (l.map (fun p => if p.1 == ch.id then
        ((p.1, ⟨p.2.count + 1, p.2.imageUrl, p.2.name⟩) : String × ChannelActivityEntry)
        else p)).map Prod.fst = l.map Prod.fst := by
    intro l
    rw [List.map_map]
    refine List.map_congr_left ?_
    intro p _
    dsimp only [Function.comp]
    split_ifs <;> rfl
  cases hs : (lookupActivity acc ch.id).isSome with
  | true => simp only [if_pos]; rw [hmap]
  | false =>
      simp only [Bool.false_eq_true, if_false]
      rw [hmap]
      simp

theorem lookupActivity_isSome_iff (acc : List (String × ChannelActivityEntry)) (k : String) :
    (lookupActivity acc k).isSome = true ↔ k ∈ acc.map Prod.fst := by
  induction acc with
  | nil => simp [lookupActivity]
  | cons a l ih =>
      rw [lookupActivity_cons]
      by_cases h : a.1 = k
      · simp [h]
      · rw [if_neg h]
        simp only [List.map_cons, List.mem_cons]
        rw [ih]
        constructor
        · intro hx; exact Or.inr hx
        · rintro (rfl | hx)
          · exact absurd rfl h
          · exact hx

theorem foldl_chanStep_map_fst :
    ∀ (cs : List Cast) (acc : List (String × ChannelActivityEntry)),
      (cs.foldl chanStep acc).map Prod.fst =
        acc.map Prod.fst ++ newFirstIds (acc.map Prod.fst) cs := by
  intro cs
  induction cs with
  | nil => intro acc; simp [newFirstIds]
  | cons c cs ih =>
      intro acc
      rw [List.foldl_cons]
      cases hcc : c.channel with
      | none =>
          have hstep : chanStep acc c = acc := by simp [chanStep, hcc]
          rw [hstep, ih]
          simp only [newFirstIds, hcc]
      | some ch =>
          have hstep : chanStep acc c = bump acc ch := by simp [chanStep, hcc]
          rw [hstep, ih, bump_map_fst]
          cases hs : (lookupActivity acc ch.id).isSome with
          | true =>
              have hmem : ch.id ∈ acc.map Prod.fst := (lookupActivity_isSome_iff acc ch.id).mp hs
              rw [if_pos rfl]
              have hnf : newFirstIds (acc.map Prod.fst) (c :: cs)
                  = newFirstIds (acc.map Prod.fst) cs := by
                simp only [newFirstIds, hcc]
                rw [if_pos hmem]
              rw [hnf]
          | false =>
              have hmem : ch.id ∉ acc.map Prod.fst := by
                rw [← lookupActivity_isSome_iff acc ch.id, hs]
                simp
              rw [if_neg (by simp [hs])]
              have hnf : newFirstIds (acc.map Prod.fst) (c :: cs)
                  = ch.id :: newFirstIds (ch.id :: acc.map Prod.fst) cs := by
                simp only [newFirstIds, hcc]
                rw [if_neg hmem]
              rw [hnf]
              rw [List.append_assoc]
              rw [newFirstIds_congr cs (acc.map Prod.fst ++ [ch.id])
                    (ch.id :: acc.map Prod.fst) (by intro a; simp [or_comm])]
              rfl

theorem channelActivity_map_fst (casts : List Cast) :
    (channelActivity casts).map Prod.fst = newFirstIds [] casts := by
  rw [channelActivity, foldl_chanStep_map_fst]
  rfl

/-- Index of the first cast naming a channel id. -/
def firstCastIdx (casts : List Cast) (id : String) : Nat :=
  casts.findIdx (fun c => castNames c id)

theorem newFirstIds_pairwise :
    ∀ (cs : List Cast) (seen : List String),
      List.Pairwise (fun a b => firstCastIdx cs a < firstCastIdx cs b)
        (newFirstIds seen cs) := by
  intro cs
  induction cs with
  | nil => intro seen; simp [newFirstIds]
  | cons c cs ih =>
      intro seen
      cases hcc : c.channel with
      | none =>
          simp only [newFirstIds, hcc]
          refine (ih seen).imp_of_mem ?_
          intro a b _ _ hab
          have hna : castNames c a = false := by simp [castNames, hcc]
          have hnb : castNames c b = false := by simp [castNames, hcc]
          simp only [firstCastIdx, List.findIdx_cons, hna, hnb, cond_false]
          simp only [firstCastIdx] at hab
          omega
      | some ch =>
          simp only [newFirstIds, hcc]
          by_cases hm : ch.id ∈ seen
          · rw [if_pos hm]
            refine (ih seen).imp_of_mem ?_
            intro a b ha hb hab
            have hane : a ≠ ch.id := fun hc =>
              mem_newFirstIds_not_seen cs seen a ha (by rw [hc]; exact hm)
            have hbne : b ≠ ch.id := fun hc =>
              mem_newFirstIds_not_seen cs seen b hb (by rw [hc]; exact hm)
            have hna : castNames c a = false := by
              simp [castNames, hcc]; exact fun hc => hane hc.symm
            have hnb : castNames c b = false := by
              simp [castNames, hcc]; exact fun hc => hbne hc.symm
            simp only [firstCastIdx, List.findIdx_cons, hna, hnb, cond_false]
            simp only [firstCastIdx] at hab
            omega
          · rw [if_neg hm]
            refine List.pairwise_cons.mpr ⟨?_, ?_⟩
            · intro b hb
              have hbne : b ≠ ch.id := fun hc =>
                mem_newFirstIds_not_seen cs _ b hb (by rw [hc]; exact List.mem_cons_self _ _)
              have hna : castNames c ch.id = true := by simp [castNames, hcc]
              have hnb : castNames c b = false := by
                simp [castNames, hcc]; exact fun hc => hbne hc.symm
              simp only [firstCastIdx, List.findIdx_cons, hna, hnb, cond_false, cond_true]
              omega
            · refine (ih (ch.id :: seen)).imp_of_mem ?_
              intro a b ha hb hab
              have hane : a ≠ ch.id := fun hc =>
                mem_newFirstIds_not_seen cs _ a ha (by rw [hc]; exact List.mem_cons_self _ _)
              have hbne : b ≠ ch.id := fun hc =>
                mem_newFirstIds_not_seen cs _ b hb (by rw [hc]; exact List.mem_cons_self _ _)
              have hna : castNames c a = false := by
                simp [castNames, hcc]; exact fun hc => hane hc.symm
              have hnb : castNames c b = false := by
                simp [castNames, hcc]; exact fun hc => hbne hc.symm
              simp only [firstCastIdx, List.findIdx_cons, hna, hnb, cond_false]
              simp only [firstCastIdx] at hab
              omega

theorem channelActivity_keys_pairwise (casts : List Cast) :
    List.Pairwise (fun a b => firstCastIdx casts a < firstCastIdx casts b)
      ((channelActivity casts).map Prod.fst) := by
  rw [channelActivity_map_fst]
  exact newFirstIds_pairwise casts []

theorem channelActivity_keys_nodup (casts : List Cast) :
    ((channelActivity casts).map Prod.fst).Nodup := by
  rw [channelActivity_map_fst]
  exact newFirstIds_nodup casts []

/-! ## Emptiness of the aggregation map -/

theorem newFirstIds_nil_eq_nil_iff :
    ∀ (cs : List Cast), newFirstIds [] cs = [] ↔ ∀ c ∈ cs, c.channel = none := by
  intro cs
  induction cs with
  | nil => simp [newFirstIds]
  | cons c cs ih =>
      cases hcc : c.channel with
      | none =>
          simp only [newFirstIds, hcc]
          rw [ih]
          constructor
          · intro h q hq
            rcases List.mem_cons.mp hq with rfl | hq
            · exact hcc
            · exact h q hq
          · intro h q hq
            exact h q (List.mem_cons_of_mem _ hq)
      | some ch =>
          simp only [newFirstIds, hcc]
          rw [if_neg (List.not_mem_nil ch.id)]
          constructor
          · intro h; exact absurd h (List.cons_ne_nil _ _)
          · intro h
            exact absurd (h c (List.mem_cons_self _ _)) (by simp [hcc])

theorem channelActivity_eq_nil_iff (casts : List Cast) :
    channelActivity casts = [] ↔ ∀ c ∈ casts, c.channel = none := by
  rw [← newFirstIds_nil_eq_nil_iff, ← channelActivity_map_fst]
  simp

/-! ## Helper facts for the claims -/

theorem firstChannelFor_isSome_iff (cs : List Cast) (id : String) :
    (firstChannelFor cs id).isSome = true ↔ ∃ c ∈ cs, castNames c id = true := by
  unfold firstChannelFor
  rw [List.findSome?_isSome_iff]
  refine exists_congr fun x => and_congr_right fun hx => ?_
  cases hxc : x.channel with
  | none => simp [castNames, hxc]
  | some ch => by_cases h2 : ch.id = id <;> simp [castNames, hxc, h2]

theorem countNaming_pos_of_isSome (cs : List Cast) (id : String)
    (h : (firstChannelFor cs id).isSome = true) : 1 ≤ countNaming cs id := by
  obtain ⟨c, hc, hp⟩ := (firstChannelFor_isSome_iff cs id).mp h
  have hmem : c ∈ cs.filter (fun c => castNames c id) := List.mem_filter.mpr ⟨hc, hp⟩
  exact List.length_pos_of_mem hmem

theorem catchClassify_ne_invalidAddress (a : String) (e : AxiosFailure) :
    catchClassify a e ≠ .error .invalidAddress := by
  cases e with
  | http s t =>
      simp only [catchClassify]
      split_ifs <;> simp
  | net t => simp [catchClassify]

theorem fetchTry_ne_invalidAddress (address : String) (w : NeynarWorld) :
    fetchTry address w ≠ .error .invalidAddress := by
  unfold fetchTry
  cases hu : w.userCall with
  | fail e => exact catchClassify_ne_invalidAddress address e
  | ok m =>
      cases hl : lookupUsers m (toLowerCase address) with
      | none => simp [hl]
      | some users =>
          cases users with
          | nil => simp [hl]
          | cons u us =>
              simp only [hl]
              cases hc : w.castsCall u.fid with
              | fail e => exact catchClassify_ne_invalidAddress address e
              | ok resp =>
                  dsimp only
                  by_cases hce : resp.casts = []
                  · simp [hce]
                  · rw [if_neg hce]
                    cases mostActive (channelActivity resp.casts) <;> simp

theorem catchClassify_eq_ok_none_iff (a : String) (e : AxiosFailure) :
    catchClassify a e = .ok none ↔ ∃ t, e = .http 404 t := by
  cases e with
  | http s t =>
      simp only [catchClassify]
      split_ifs <;> simp_all
  | net t => simp [catchClassify]

/-! ## The claims -/

/-- C2: for every cast list the ChannelActivity map has exactly one entry
per distinct channel-id named by some cast (no duplicate keys; an entry is
present exactly when some cast names the id); the entry's count is the
number of casts naming the channel (hence at least 1) and its imageUrl and
name come from the first cast naming it, with the imageUrl coalesced as
`image_url || imageUrl || ""`. -/
theorem C2_channelActivity_invariants (casts : List Cast) (id : String) :
    lookupActivity (channelActivity casts) id
        = (firstChannelFor casts id).map
            (fun ch => ⟨countNaming casts id, coalesceImageUrl ch, ch.name⟩)
      ∧ ((channelActivity casts).map Prod.fst).Nodup
      ∧ ((lookupActivity (channelActivity casts) id).isSome = true
          ↔ ∃ c ∈ casts, castNames c id = true)
      ∧ ((firstChannelFor casts id).isSome = true → 1 ≤ countNaming casts id) := by
  refine ⟨lookupActivity_channelActivity casts id, channelActivity_keys_nodup casts, ?_,
    countNaming_pos_of_isSome casts id⟩
  rw [lookupActivity_channelActivity, ← firstChannelFor_isSome_iff casts id]
  cases firstChannelFor casts id <;> simp

/-- C9: the resolver fails with the InvalidInput error exactly when the
address is the empty string (the only falsy string; the `typeof` test is
vacuous for strings), and for every non-empty address it proceeds to the
try body beginning with the identity lookup. -/
theorem C9_invalidInput_iff (address : String) (w : NeynarWorld) :
    (fetchMostActiveChannelImage address w = .error .invalidAddress ↔ address = "")
    ∧ (address ≠ "" → fetchMostActiveChannelImage address w = fetchTry address w) := by
  constructor
  · constructor
    · intro h
      by_contra hne
      rw [fetchMostActiveChannelImage, if_neg hne] at h
      exact fetchTry_ne_invalidAddress address w h
    · intro h
      rw [fetchMostActiveChannelImage, if_pos h]
  · intro h
    rw [fetchMostActiveChannelImage, if_neg h]

/-- C10: the exported `fetchFirstMintedArtwork` is definitionally the same
function as `fetchMostActiveChannelImage`: identical results and identical
errors on every input. -/
theorem C10_fetchFirstMintedArtwork_alias (address : String) (w : NeynarWorld) :
    fetchFirstMintedArtwork address w = fetchMostActiveChannelImage address w := rfl

/-- C3: with a non-empty address the resolver returns `.ok none` (NotFound
as a value, not an error) exactly when: the identity lookup fails with HTTP
404; the identity response has no entry (or an empty entry) for the
lower-cased address; the feed lookup fails with HTTP 404; or the feed
succeeds with an empty cast list or a cast list in which no cast has a
channel. -/
theorem C3_notFound_iff (address : String) (w : NeynarWorld) (ha : address ≠ "") :
    fetchMostActiveChannelImage address w = .ok none ↔
      ((∃ t, w.userCall = .fail (.http 404 t))
        ∨ (∃ m, w.userCall = .ok m ∧ lookupUsers m (toLowerCase address) = none)
        ∨ (∃ m, w.userCall = .ok m ∧ lookupUsers m (toLowerCase address) = some [])
        ∨ (∃ m u us t, w.userCall = .ok m ∧ lookupUsers m (toLowerCase address) = some (u :: us)
            ∧ w.castsCall u.fid = .fail (.http 404 t))
        ∨ (∃ m u us resp, w.userCall = .ok m ∧ lookupUsers m (toLowerCase address) = some (u :: us)
            ∧ w.castsCall u.fid = .ok resp
            ∧ (resp.casts = [] ∨ ∀ c ∈ resp.casts, c.channel = none))) := by
  rw [fetchMostActiveChannelImage, if_neg ha]
  unfold fetchTry
  cases hu : w.userCall with
  | fail e =>
      rw [catchClassify_eq_ok_none_iff]
      simp [hu]
  | ok m =>
      cases hl : lookupUsers m (toLowerCase address) with
      | none => simp [hl]
      | some users =>
          cases users with
          | nil => simp [hl]
          | cons u us =>
              simp only [hl]
              cases hc : w.castsCall u.fid with
              | fail e =>
                  rw [catchClassify_eq_ok_none_iff]
                  simp [hl, hc]
              | ok resp =>
                  dsimp only
                  by_cases hce : resp.casts = []
                  · simp [hl, hc, hce]
                  · rw [if_neg hce]
                    cases hma : mostActive (channelActivity resp.casts) with
                    | none =>
                        dsimp only
                        have hall : ∀ c ∈ resp.casts, c.channel = none :=
                          (channelActivity_eq_nil_iff resp.casts).mp
                            ((mostActive_eq_none_iff _).mp hma)
                        constructor
                        · intro _
                          exact Or.inr (Or.inr (Or.inr (Or.inr
                            ⟨m, u, us, resp, rfl, hl, hc, Or.inr hall⟩)))
                        · intro _
                          rfl
                    | some mx =>
                        have hnotall : ¬ (∀ c ∈ resp.casts, c.channel = none) := by
                          intro hall
                          rw [(channelActivity_eq_nil_iff resp.casts).mpr hall] at hma
                          simp [mostActive] at hma
                        simp [hl, hc, hce, hnotall]

/-- C1: on a successful two-step lookup with a non-empty cast list naming
at least one channel, the resolver returns the stored imageUrl and name of
a winning entry of the ChannelActivity map whose count is maximal, and
every entry tying that count has its first cast no earlier in the
sequence (a later equal count never replaces the current maximum). -/
theorem C1_mostActive_selection (address : String) (w : NeynarWorld)
    (userMap : List (String × List NeynarUser)) (u : NeynarUser) (us : List NeynarUser)
    (resp : NeynarUserCastResponse)
    (ha : address ≠ "")
    (hu : w.userCall = .ok userMap)
    (hl : lookupUsers userMap (toLowerCase address) = some (u :: us))
    (hc : w.castsCall u.fid = .ok resp)
    (hne : resp.casts ≠ [])
    (hch : ∃ c ∈ resp.casts, c.channel.isSome = true) :
    ∃ win ∈ channelActivity resp.casts,
      fetchMostActiveChannelImage address w
          = .ok (some ⟨win.2.imageUrl, address, some win.2.name⟩)
      ∧ (∀ q ∈ channelActivity resp.casts, q.2.count ≤ win.2.count)
      ∧ (∀ q ∈ channelActivity resp.casts, q.2.count = win.2.count →
          firstCastIdx resp.casts win.1 ≤ firstCastIdx resp.casts q.1) := by
  have hanil : channelActivity resp.casts ≠ [] := by
    intro hnil
    obtain ⟨c, hcmem, hcs⟩ := hch
    have := (channelActivity_eq_nil_iff resp.casts).mp hnil c hcmem
    rw [this] at hcs
    simp at hcs
  cases hm : mostActive (channelActivity resp.casts) with
  | none => exact absurd ((mostActive_eq_none_iff _).mp hm) hanil
  | some win =>
      have hfetch : fetchMostActiveChannelImage address w
          = .ok (some ⟨win.2.imageUrl, address, some win.2.name⟩) := by
        rw [fetchMostActiveChannelImage, if_neg ha]
        unfold fetchTry
        rw [hu]
        dsimp only
        rw [hl]
        dsimp only
        rw [hc]
        dsimp only
        rw [if_neg hne, hm]
      have hfm : firstMax (channelActivity resp.casts) = some win := by
        rw [← mostActive_eq_firstMax]
        exact hm
      obtain ⟨l₁, l₂, heq, hlt⟩ := firstMax_spec _ _ hfm
      have hwmem : win ∈ channelActivity resp.casts := by
        rw [heq]
        exact List.mem_append_right _ (List.mem_cons_self _ _)
      refine ⟨win, hwmem, hfetch, ?_, ?_⟩
      · exact firstMax_le _ _ hfm
      · intro q hq hqc
        have hpw := channelActivity_keys_pairwise resp.casts
        rw [heq, List.map_append, List.map_cons] at hpw
        rw [heq] at hq
        rcases List.mem_append.mp hq with hq1 | hq2
        · exact absurd hqc (Nat.ne_of_lt (hlt q hq1))
        · rcases List.mem_cons.mp hq2 with rfl | hq3
          · exact le_refl _
          · have hq4 : q.1 ∈ l₂.map Prod.fst := List.mem_map_of_mem Prod.fst hq3
            have hsub : (win.1 :: l₂.map Prod.fst).Sublist
                (l₁.map Prod.fst ++ win.1 :: l₂.map Prod.fst) :=
              List.sublist_append_right _ _
            have hpw2 := hpw.sublist hsub
            exact le_of_lt (List.rel_of_pairwise_cons hpw2 hq4)

/-- C7: for positive image dimensions the computed display size fits the
670 by 670 box, preserves the aspect ratio (stated multiplicatively), the
draw position is the centred position shifted right 0.1 and up 28.5, and a
2:1 image gets display size exactly 670 by 335. -/
theorem C7_artLayout_fit (canvasW canvasH : ℚ) (img : Img)
    (hw : 0 < img.width) (hh : 0 < img.height) :
    (artLayout canvasW canvasH img).displayWidth ≤ 670
    ∧ (artLayout canvasW canvasH img).displayHeight ≤ 670
    ∧ (artLayout canvasW canvasH img).displayWidth * img.height
        = (artLayout canvasW canvasH img).displayHeight * img.width
    ∧ (artLayout canvasW canvasH img).x
        = (canvasW - (artLayout canvasW canvasH img).displayWidth) / 2 + 0.1
    ∧ (artLayout canvasW canvasH img).y
        = (canvasH - (artLayout canvasW canvasH img).displayHeight) / 2 - 28.5
    ∧ (img.width = 2 * img.height →
        (artLayout canvasW canvasH img).displayWidth = 670
        ∧ (artLayout canvasW canvasH img).displayHeight = 335) := by
  have hh0 : img.height ≠ 0 := ne_of_gt hh
  have hw0 : img.width ≠ 0 := ne_of_gt hw
  have ha : 0 < img.width / img.height := div_pos hw hh
  unfold artLayout
  dsimp only
  split_ifs with hgt
  · dsimp only
    have hmul : 670 * (img.width / img.height) < 670 := (lt_div_iff₀ ha).mp hgt
    refine ⟨le_of_lt hmul, le_refl _, ?_, rfl, rfl, ?_⟩
    · field_simp
    · intro h21
      exfalso
      have h2 : img.width / img.height = 2 := by
        rw [h21]
        field_simp
      rw [h2] at hgt
      norm_num at hgt
  · dsimp only
    refine ⟨le_refl _, le_of_not_lt hgt, ?_, rfl, rfl, ?_⟩
    · field_simp
    · intro h21
      have h2 : img.width / img.height = 2 := by
        rw [h21]
        field_simp
      rw [h2]
      norm_num

theorem artOps_strokeRect_of_drawImage (cw chh : ℚ) (img : Img) (x y wdt hgt : ℚ)
    (h : DrawOp.drawImage x y wdt hgt ∈ artOps cw chh img) :
    DrawOp.strokeRect (x - 2) (y - 2) (wdt + 4) (hgt + 4) "rgba(255, 255, 255, 0.3)" 2
      ∈ artOps cw chh img := by
  simp only [artOps, List.mem_cons, List.mem_singleton] at h
  rcases h with h | h
  · injection h with hx hy hw2 hh2
    subst hx
    subst hy
    subst hw2
    subst hh2
    simp [artOps]
  · simp at h

/-- C8 (amended): whenever the handler's PNG contains a drawImage at
(x, y) with size (w, h), it also strokes the width-2 translucent white
border rectangle around that bounding box expanded outward by 2 units on
each side: corner (x - 2, y - 2), size (w + 4, h + 4). -/
theorem C8_border_outset (address : Option String) (rv : RenderWorld) (nw : NeynarWorld)
    (ops : List DrawOp) (x y wdt hgt : ℚ)
    (hop : (handler address rv nw).body = .png ops)
    (hmem : DrawOp.drawImage x y wdt hgt ∈ ops) :
    DrawOp.strokeRect (x - 2) (y - 2) (wdt + 4) (hgt + 4) "rgba(255, 255, 255, 0.3)" 2 ∈ ops := by
  cases address with
  | none => simp [handler, missingAddressResponse] at hop
  | some addr =>
      unfold handler at hop
      dsimp only at hop
      by_cases hae : addr = ""
      · rw [if_pos hae] at hop
        simp [missingAddressResponse] at hop
      · rw [if_neg hae] at hop
        cases ht : rv.templateLoad with
        | none =>
            rw [ht] at hop
            simp [internalErrorResponse] at hop
        | some tmpl =>
            rw [ht] at hop
            dsimp only at hop
            cases hf : fetchMostActiveChannelImage addr nw with
            | error e =>
                rw [hf] at hop
                dsimp only at hop
                unfold handlerErrorResponse at hop
                split_ifs at hop
            | ok result =>
                rw [hf] at hop
                dsimp only at hop
                injection hop with hops
                subst hops
                cases hA : chooseArtwork rv result with
                | none =>
                    rw [hA] at hmem
                    simp at hmem
                | some img =>
                    rw [hA] at hmem
                    dsimp only at hmem ⊢
                    rcases List.mem_cons.mp hmem with h | h
                    · simp at h
                    · exact List.mem_cons_of_mem _
                        (artOps_strokeRect_of_drawImage _ _ _ _ _ _ _ h)

/-- C6: when the resolver reports NotFound (`.ok none`, as an upstream 404
produces), the handler answers 200 `image/png` with the caching and
security headers, drawing the template and then the placeholder if it
loads, or the template alone if the placeholder fails to load. -/
theorem C6_notFound_renders_template (addr : String) (rv : RenderWorld) (nw : NeynarWorld)
    (tmpl : Img) (ha : addr ≠ "") (ht : rv.templateLoad = some tmpl)
    (hn : fetchMostActiveChannelImage addr nw = .ok none) :
    handler (some addr) rv nw =
      { status := 200
        headers := [("Content-Type", "image/png"), ("Cache-Control", "public, max-age=300"),
          ("X-Content-Type-Options", "nosniff"), ("X-Frame-Options", "DENY")]
        body := .png (DrawOp.drawTemplate ::
          (match rv.imageLoad placeholderUrl with
           | some img => artOps tmpl.width tmpl.height img
           | none => [])) } := by
  unfold handler
  dsimp only
  rw [if_neg ha, ht]
  dsimp only
  rw [hn]
  dsimp only [chooseArtwork]

/-- C5: a resolver failure recognised by the rate-limit test yields 429
with `Retry-After: 60`, `X-RateLimit-Reset` at now+60s and body
`retryAfter: 60`; the InvalidInput failure yields 400 with error
"Invalid Ethereum address provided"; any other failure yields 503 with
`Retry-After: 30`. -/
theorem C5_error_responses (addr : String) (rv : RenderWorld) (nw : NeynarWorld)
    (tmpl : Img) (e : ResolverError)
    (ha : addr ≠ "") (ht : rv.templateLoad = some tmpl)
    (hf : fetchMostActiveChannelImage addr nw = .error e) :
    (rateLimitCheck e.message = true →
      handler (some addr) rv nw =
        { status := 429
          headers := [("Retry-After", "60"), ("X-RateLimit-Reset", toString (rv.now + 60000))]
          body := .json ⟨"Rate limit exceeded. Please try again later.",
            some "Too many requests to external API. Please wait before retrying.", some 60⟩ })
    ∧ (e = .invalidAddress →
      handler (some addr) rv nw =
        { status := 400
          headers := []
          body := .json ⟨"Invalid Ethereum address provided",
            some "Please provide a valid Ethereum address in 0x format.", none⟩ })
    ∧ (rateLimitCheck e.message = false →
        includesSubstr e.message "Invalid address" = false →
      handler (some addr) rv nw =
        { status := 503
          headers := [("Retry-After", "30")]
          body := .json ⟨"External API service temporarily unavailable. Please try again later.",
            some "The external API is currently experiencing issues. Please retry in 30 seconds.",
            none⟩ }) := by
  have hmain : handler (some addr) rv nw = handlerErrorResponse rv.now e := by
    unfold handler
    dsimp only
    rw [if_neg ha, ht]
    dsimp only
    rw [hf]
  refine ⟨?_, ?_, ?_⟩
  · intro hrl
    rw [hmain]
    unfold handlerErrorResponse
    rw [if_pos hrl]
  · rintro rfl
    rw [hmain]
    unfold handlerErrorResponse
    rw [if_neg (by decide), if_pos (by decide)]
  · intro h1 h2
    rw [hmain]
    unfold handlerErrorResponse
    rw [if_neg (by simp [h1]), if_neg (by simp [h2])]

theorem includesSubstr_eq_true_iff (hay pat : String) :
    includesSubstr hay pat = true ↔ pat.data <:+: hay.data := by
  simp [includesSubstr]

theorem message_wrapped_includes (address t pat : String)
    (h : includesSubstr t pat = true) :
    includesSubstr (ResolverError.wrapped address t).message pat = true := by
  rw [includesSubstr_eq_true_iff] at h ⊢
  refine h.trans ?_
  show t.data <:+:
    (("Failed to fetch most active channel image for address " ++ address ++ ": ") ++ t).data
  rw [String.data_append]
  exact (List.suffix_append _ _).isInfix

/-- C4 (amended): the resolver's catch maps 401 to the AuthFailure error,
403 to Forbidden, >= 500 to UpstreamServerError, and wraps every other
failure — an HTTP 429 included — in the catch-all wrapping carrying the
address and the stringified cause; the handler only then recognises rate
limiting, by finding "Rate limit exceeded" or "429" inside the wrapped
message, and answers 429. -/
theorem C4_error_classification (address t : String) (s now : Nat) :
    catchClassify address (.http 401 t) = .error .authFailed
    ∧ catchClassify address (.http 403 t) = .error .forbidden
    ∧ (500 ≤ s → catchClassify address (.http s t) = .error .serverError)
    ∧ (s ≠ 401 → s ≠ 403 → s ≠ 404 → s < 500 →
        catchClassify address (.http s t) = .error (.wrapped address t))
    ∧ catchClassify address (.net t) = .error (.wrapped address t)
    ∧ (includesSubstr t "429" = true →
        handlerErrorResponse now (.wrapped address t) =
          { status := 429
            headers := [("Retry-After", "60"), ("X-RateLimit-Reset", toString (now + 60000))]
            body := .json ⟨"Rate limit exceeded. Please try again later.",
              some "Too many requests to external API. Please wait before retrying.", some 60⟩ })
    ∧ (includesSubstr t "Rate limit exceeded" = true →
        handlerErrorResponse now (.wrapped address t) =
          { status := 429
            headers := [("Retry-After", "60"), ("X-RateLimit-Reset", toString (now + 60000))]
            body := .json ⟨"Rate limit exceeded. Please try again later.",
              some "Too many requests to external API. Please wait before retrying.", some 60⟩ }) := by
  refine ⟨rfl, ?_, ?_, ?_, rfl, ?_, ?_⟩
  · simp [catchClassify]
  · intro h5
    have h1 : s ≠ 401 := by omega
    have h3 : s ≠ 403 := by omega
    have h4 : s ≠ 404 := by omega
    simp [catchClassify, h1, h3, h4, h5]
  · intro h1 h3 h4 h5
    have h6 : ¬ 500 ≤ s := by omega
    simp [catchClassify, h1, h3, h4, h6]
  · intro h
    have hrl : rateLimitCheck (ResolverError.wrapped address t).message = true := by
      unfold rateLimitCheck
      rw [message_wrapped_includes address t "429" h]
      simp
    unfold handlerErrorResponse
    rw [if_pos hrl]
  · intro h
    have hrl : rateLimitCheck (ResolverError.wrapped address t).message = true := by
      unfold rateLimitCheck
      rw [message_wrapped_includes address t "Rate limit exceeded" h]
      simp
    unfold handlerErrorResponse
    rw [if_pos hrl]

/-! ## Concrete worlds for counterexamples and witnesses -/

def exCastA : Cast := ⟨"h1", some ⟨"alpha", "Alpha", none, some "imA"⟩⟩

def exCastB : Cast := ⟨"h2", some ⟨"beta", "Beta", some "imB", none⟩⟩

def exUser : NeynarUser := ⟨7⟩

def exWorld : NeynarWorld :=
  { userCall := .ok [("0xab", [exUser])]
    castsCall := fun _ => .ok ⟨[exCastA, exCastB, exCastB]⟩ }

def exWorld404 : NeynarWorld :=
  { userCall := .fail (.http 404 "AxiosError: Request failed with status code 404")
    castsCall := fun _ => .fail (.net "unused") }

def exWorld500 : NeynarWorld :=
  { userCall := .fail (.http 500 "AxiosError: Request failed with status code 500")
    castsCall := fun _ => .fail (.net "unused") }

def cexWorld429 : NeynarWorld :=
  { userCall := .fail (.http 429 "AxiosError: Request failed with status code 429")
    castsCall := fun _ => .fail (.net "unused") }

def cexWorldNet : NeynarWorld :=
  { userCall := .fail (.net "Error: timeout of 10000ms exceeded")
    castsCall := fun _ => .fail (.net "unused") }

def exRender : RenderWorld :=
  { templateLoad := some ⟨1000, 1000⟩
    imageLoad := fun _ => some ⟨670, 670⟩
    now := 0 }

/-- C4 counterexample: at a concrete HTTP 429 failure the resolver throws
the generic catch-all wrapping — the very same wrapping a plain network
failure gets — and not a distinct rate-limit error kind. -/
theorem C4_counterexample :
    fetchMostActiveChannelImage "0x1" cexWorld429
        = .error (.wrapped "0x1" "AxiosError: Request failed with status code 429")
    ∧ fetchMostActiveChannelImage "0x1" cexWorldNet
        = .error (.wrapped "0x1" "Error: timeout of 10000ms exceeded") :=
  ⟨rfl, rfl⟩

/-- C8 counterexample: for a concrete square artwork the stroked border
rectangle is the bounding box expanded by 2 on each side, which differs
from the rectangle inset by 2 on each side that the spec sentence
describes. -/
theorem C8_counterexample :
    artOps 1000 1000 ⟨670, 670⟩
        = [DrawOp.drawImage (1651/10) (273/2) 670 670,
           DrawOp.strokeRect (1631/10) (269/2) 674 674 "rgba(255, 255, 255, 0.3)" 2]
    ∧ specInsetBorder (1651/10) (273/2) 670 670
        = DrawOp.strokeRect (1671/10) (277/2) 666 666 "rgba(255, 255, 255, 0.3)" 2
    ∧ DrawOp.strokeRect (1631/10) (269/2) 674 674 "rgba(255, 255, 255, 0.3)" 2
        ≠ specInsetBorder (1651/10) (273/2) 670 670 := by
  have hlay : artLayout 1000 1000 ⟨670, 670⟩ = ⟨1651/10, 273/2, 670, 670⟩ := by
    unfold artLayout
    dsimp only
    rw [if_neg (by norm_num)]
    simp only [ArtLayout.mk.injEq]
    norm_num
  refine ⟨?_, ?_, ?_⟩
  · simp only [artOps]
    rw [hlay]
    simp only [List.cons.injEq, DrawOp.drawImage.injEq, DrawOp.strokeRect.injEq, and_true]
    norm_num
  · simp only [specInsetBorder, DrawOp.strokeRect.injEq]
    norm_num
  · simp only [specInsetBorder, ne_eq, DrawOp.strokeRect.injEq]
    norm_num

/-! ## Witnesses -/

theorem C1_witness :
    ∃ win ∈ channelActivity [exCastA, exCastB, exCastB],
      fetchMostActiveChannelImage "0xAB" exWorld
          = .ok (some ⟨win.2.imageUrl, "0xAB", some win.2.name⟩)
      ∧ (∀ q ∈ channelActivity [exCastA, exCastB, exCastB], q.2.count ≤ win.2.count)
      ∧ (∀ q ∈ channelActivity [exCastA, exCastB, exCastB], q.2.count = win.2.count →
          firstCastIdx [exCastA, exCastB, exCastB] win.1
            ≤ firstCastIdx [exCastA, exCastB, exCastB] q.1) :=
  C1_mostActive_selection "0xAB" exWorld [("0xab", [exUser])] exUser []
    ⟨[exCastA, exCastB, exCastB]⟩ (by decide) rfl (by decide) rfl (by decide) (by decide)

theorem C3_witness :
    fetchMostActiveChannelImage "0xAB" exWorld404 = .ok none ↔
      ((∃ t, exWorld404.userCall = .fail (.http 404 t))
        ∨ (∃ m, exWorld404.userCall = .ok m ∧ lookupUsers m (toLowerCase "0xAB") = none)
        ∨ (∃ m, exWorld404.userCall = .ok m ∧ lookupUsers m (toLowerCase "0xAB") = some [])
        ∨ (∃ m u us t, exWorld404.userCall = .ok m
            ∧ lookupUsers m (toLowerCase "0xAB") = some (u :: us)
            ∧ exWorld404.castsCall u.fid = .fail (.http 404 t))
        ∨ (∃ m u us resp, exWorld404.userCall = .ok m
            ∧ lookupUsers m (toLowerCase "0xAB") = some (u :: us)
            ∧ exWorld404.castsCall u.fid = .ok resp
            ∧ (resp.casts = [] ∨ ∀ c ∈ resp.casts, c.channel = none))) :=
  C3_notFound_iff "0xAB" exWorld404 (by decide)

theorem C5_witness :
    (rateLimitCheck (ResolverError.serverError).message = true →
      handler (some "0xAB") exRender exWorld500 =
        { status := 429
          headers := [("Retry-After", "60"), ("X-RateLimit-Reset", toString (exRender.now + 60000))]
          body := .json ⟨"Rate limit exceeded. Please try again later.",
            some "Too many requests to external API. Please wait before retrying.", some 60⟩ })
    ∧ (ResolverError.serverError = .invalidAddress →
      handler (some "0xAB") exRender exWorld500 =
        { status := 400
          headers := []
          body := .json ⟨"Invalid Ethereum address provided",
            some "Please provide a valid Ethereum address in 0x format.", none⟩ })
    ∧ (rateLimitCheck (ResolverError.serverError).message = false →
        includesSubstr (ResolverError.serverError).message "Invalid address" = false →
      handler (some "0xAB") exRender exWorld500 =
        { status := 503
          headers := [("Retry-After", "30")]
          body := .json ⟨"External API service temporarily unavailable. Please try again later.",
            some "The external API is currently experiencing issues. Please retry in 30 seconds.",
            none⟩ }) :=
  C5_error_responses "0xAB" exRender exWorld500 ⟨1000, 1000⟩ .serverError
    (by decide) rfl rfl

theorem C6_witness :
    handler (some "0xAB") exRender exWorld404 =
      { status := 200
        headers := [("Content-Type", "image/png"), ("Cache-Control", "public, max-age=300"),
          ("X-Content-Type-Options", "nosniff"), ("X-Frame-Options", "DENY")]
        body := .png (DrawOp.drawTemplate ::
          (match exRender.imageLoad placeholderUrl with
           | some img => artOps (1000 : ℚ) 1000 img
           | none => [])) } :=
  C6_notFound_renders_template "0xAB" exRender exWorld404 ⟨1000, 1000⟩ (by decide) rfl rfl

theorem C7_witness :
    (artLayout 1000 1000 ⟨800, 400⟩).displayWidth ≤ 670
    ∧ (artLayout 1000 1000 ⟨800, 400⟩).displayHeight ≤ 670
    ∧ (artLayout 1000 1000 ⟨800, 400⟩).displayWidth * (400 : ℚ)
        = (artLayout 1000 1000 ⟨800, 400⟩).displayHeight * 800
    ∧ (artLayout 1000 1000 ⟨800, 400⟩).x
        = (1000 - (artLayout 1000 1000 ⟨800, 400⟩).displayWidth) / 2 + 0.1
    ∧ (artLayout 1000 1000 ⟨800, 400⟩).y
        = (1000 - (artLayout 1000 1000 ⟨800, 400⟩).displayHeight) / 2 - 28.5
    ∧ ((800 : ℚ) = 2 * 400 →
        (artLayout 1000 1000 ⟨800, 400⟩).displayWidth = 670
        ∧ (artLayout 1000 1000 ⟨800, 400⟩).displayHeight = 335) :=
  C7_artLayout_fit 1000 1000 ⟨800, 400⟩ (by norm_num) (by norm_num)

theorem handler_exRender_404 :
    handler (some "0xAB") exRender exWorld404 =
      { status := 200
        headers := [("Content-Type", "image/png"), ("Cache-Control", "public, max-age=300"),
          ("X-Content-Type-Options", "nosniff"), ("X-Frame-Options", "DENY")]
        body := .png [DrawOp.drawTemplate,
          DrawOp.drawImage (1651/10) (273/2) 670 670,
          DrawOp.strokeRect (1631/10) (269/2) 674 674 "rgba(255, 255, 255, 0.3)" 2] } := by
  have hlay : artLayout 1000 1000 ⟨670, 670⟩ = ⟨1651/10, 273/2, 670, 670⟩ := by
    unfold artLayout
    dsimp only
    rw [if_neg (by norm_num)]
    simp only [ArtLayout.mk.injEq]
    norm_num
  have hfetch : fetchMostActiveChannelImage "0xAB" exWorld404 = .ok none := rfl
  unfold handler
  dsimp only
  rw [if_neg (by decide), show exRender.templateLoad = some ⟨1000, 1000⟩ from rfl]
  dsimp only
  rw [hfetch]
  dsimp only [chooseArtwork]
  rw [show exRender.imageLoad placeholderUrl = some ⟨670, 670⟩ from rfl]
  dsimp only
  simp only [HttpResponse.mk.injEq, ResponseBody.png.injEq, List.cons.injEq, true_and, and_true]
  simp only [artOps]
  rw [hlay]
  simp only [List.cons.injEq, DrawOp.drawImage.injEq, DrawOp.strokeRect.injEq, and_true, true_and]
  norm_num

theorem C8_witness :
    DrawOp.strokeRect (1651/10 - 2) (273/2 - 2) ((670 : ℚ) + 4) ((670 : ℚ) + 4)
        "rgba(255, 255, 255, 0.3)" 2
      ∈ [DrawOp.drawTemplate,
         DrawOp.drawImage (1651/10) (273/2) 670 670,
         DrawOp.strokeRect (1631/10) (269/2) 674 674 "rgba(255, 255, 255, 0.3)" 2] :=
  C8_border_outset (some "0xAB") exRender exWorld404
    [DrawOp.drawTemplate,
     DrawOp.drawImage (1651/10) (273/2) 670 670,
     DrawOp.strokeRect (1631/10) (269/2) 674 674 "rgba(255, 255, 255, 0.3)" 2]
    (1651/10) (273/2) 670 670 (by rw [handler_exRender_404]) (by simp)

end FavChannel
